import Mathlib

/-!
Shallow embedding of the `nominal` rule engine.

The definitions below are translated from the Python sources:
  * `src/nominal/processor/criterion.py` — criterion tree (`Criterion.matchOn`)
  * `src/nominal/processor/action.py`    — actions (`Action.act`)
  * `src/nominal/rules/rule.py`          — `Rule.apply` (two-phase execution),
    the `Rule` used by `NominalProcessor` (imported from `nominal.rules`)
  * `src/nominal/rules/parser.py`        — `RuleParser._parse_criterion`
  * `src/nominal/processor/processor.py` — `NominalProcessor`

Python dicts of string variables are modelled as ordered association lists
(`VarMap`) with Python-dict update semantics (update-in-place or append).
The `re` regular-expression collaborator is modelled abstractly: a `Pattern`
carries a validity flag (an invalid pattern makes `re.search` / `re.split`
raise `re.error`, modelled by `Except`) together with its search and split
semantics as functions.  Logging is dropped except for the conflict warnings
of `process_document`, which are returned explicitly so that the effect of
`enforce_global` is observable.
-/

namespace Nominal

/-- A Python `dict[str, str]`: ordered association list, unique keys maintained
by `dset` (update in place if the key exists, else append). -/
abbrev VarMap := List (String × String)

/-- `m.get(k)` / `m[k]`: value of the first (and only) entry for `k`. -/
def dget : VarMap → String → Option String
  | [], _ => none
  | (k, v) :: rest, key => if k = key then some v else dget rest key

/-- `k in m`. -/
def dmem (m : VarMap) (k : String) : Bool :=
  (dget m k).isSome

/-- `m[k] = v`: update in place if present, else append (Python dict insertion
order semantics). -/
def dset : VarMap → String → String → VarMap
  | [], key, val => [(key, val)]
  | (k, v) :: rest, key, val =>
    if k = key then (k, val) :: rest else (k, v) :: dset rest key val

/-- `m.update(other)`: write every entry of `other` into `m`, in order. -/
def dupdate (m other : VarMap) : VarMap :=
  other.foldl (fun acc kv => dset acc kv.1 kv.2) m

/-- A Python `re` match object: `whole` is `group(0)`, `groups` is
`match.groups()` (capture groups 1..n, `none` for a non-participating group). -/
structure RMatch where
  whole : String
  groups : List (Option String)

/-- `match.group(g)` for `0 ≤ g ≤ len(groups)`; `group(0)` is the whole match,
and a non-participating group yields `none` (Python `None`). -/
def RMatch.group (m : RMatch) (g : Nat) : Option String :=
  if g = 0 then some m.whole else (m.groups.get? (g - 1)).getD none

/-- Model of a regex pattern string handed to the `re` module: `valid` records
whether the pattern compiles, `search`/`split` give the semantics of
`re.search(p, ·)` and `re.split(p, ·)` when it does. -/
structure Pattern where
  valid : Bool
  search : String → Option RMatch
  split : String → List String

/-- `re.error`. -/
inductive ReError where
  | invalidPattern
  deriving DecidableEq

/-- `re.search(p, text)`: raises `re.error` on an invalid pattern. -/
def reSearch (p : Pattern) (text : String) : Except ReError (Option RMatch) :=
  if p.valid then .ok (p.search text) else .error .invalidPattern

/-- `re.split(p, s)`: raises `re.error` on an invalid pattern. -/
def reSplit (p : Pattern) (s : String) : Except ReError (List String) :=
  if p.valid then .ok (p.split s) else .error .invalidPattern

/-- Does the haystack start with the needle?  (`needle` first.) -/
def startsWithChars : List Char → List Char → Bool
  | [], _ => true
  | _ :: _, [] => false
  | a :: as, b :: bs => a = b && startsWithChars as bs

/-- Does the needle occur as a contiguous sublist of the haystack? -/
def hasSubChars : List Char → List Char → Bool
  | hay, need =>
    if startsWithChars need hay then true
    else
      match hay with
      | [] => false
      | _ :: rest => hasSubChars rest need

/-- Python substring test `v in t` (always true for the empty string). -/
def strContains (t v : String) : Bool :=
  hasSubChars t.data v.data

/-- Criterion tree, from `processor/criterion.py` (the `rules` package re-exports
the same classes).  `cvar` is the `variable` attribute of `RegexCriterion`
(`variable` is a Lean keyword). -/
inductive Criterion where
  | contains (value : String) (case_sensitive : Bool)
  | regex (pattern : Pattern) (capture : Bool) (cvar : Option String)
  | all (sub_criteria : List Criterion)
  | any (sub_criteria : List Criterion)

mutual

/-- `Criterion.match(text) -> (bool, captured)`, from `processor/criterion.py`.
The `except re.error` clause of `RegexCriterion.match` appears as the
`.error` arm: an invalid pattern yields `(false, {})`, it does not propagate. -/
def Criterion.matchOn : Criterion → String → Bool × VarMap
  | .contains value case_sensitive, text =>
    let search_text := if case_sensitive then text else text.toLower
    let search_value := if case_sensitive then value else value.toLower
    (strContains search_text search_value, [])
  | .regex pattern capture cvar, text =>
    match reSearch pattern text with
    | .error _ => (false, [])
    | .ok mOpt =>
      let captured : VarMap :=
        match mOpt with
        | some m =>
          match cvar with
          | some v => if capture && v ≠ "" then [(v, m.whole)] else []
          | none => []
        | none => []
      (mOpt.isSome, captured)
  | .all sub_criteria, text => matchAllList sub_criteria text []
  | .any sub_criteria, text => matchAnyList sub_criteria text

/-- The loop of `AllCriterion.match`: short-circuits on the first failing
child, returning `(False, {})`; otherwise unions captures left to right. -/
def matchAllList : List Criterion → String → VarMap → Bool × VarMap
  | [], _, acc => (true, acc)
  | c :: cs, text, acc =>
    let r := c.matchOn text
    if r.1 then matchAllList cs text (dupdate acc r.2) else (false, [])

/-- The loop of `AnyCriterion.match`: stops at the first matching child and
returns only that child's captures. -/
def matchAnyList : List Criterion → String → Bool × VarMap
  | [], _ => (false, [])
  | c :: cs, text =>
    let r := c.matchOn text
    if r.1 then (true, r.2) else matchAnyList cs text

end

/-- `ActionType` enum (`enums.py`). -/
inductive ActionType where
  | set
  | regex_extract
  | derive
  | extract
  deriving DecidableEq

/-- Arguments of a `derive` action (`args.get('start')`, `args.get('end')`);
`stop` is the Python `end` key (`end` is a Lean keyword). -/
structure DeriveArgs where
  start : Option Int
  stop : Option Int

/-- Arguments of an `extract` action; the Python defaults
(`pattern = r'\s+'`, `index = 0`) are resolved when the model value is built. -/
structure ExtractArgs where
  pattern : Pattern
  index : Int

/-- Actions, from `processor/action.py`. -/
inductive Action where
  | set (variableName : String) (value : String)
  | regexExtract (variableName : String) (pattern : Pattern) (group : Nat) (from_text : Bool)
  | derive (variableName : String) (from_var : String) (method : String) (args : DeriveArgs)
  | extract (variableName : String) (from_var : String) (method : String) (args : ExtractArgs)

/-- The `variable` attribute shared by every action. -/
def Action.var : Action → String
  | .set v _ => v
  | .regexExtract v _ _ _ => v
  | .derive v _ _ _ => v
  | .extract v _ _ _ => v

/-- `Action.get_type()`. -/
def Action.getType : Action → ActionType
  | .set _ _ => .set
  | .regexExtract _ _ _ _ => .regex_extract
  | .derive _ _ _ _ => .derive
  | .extract _ _ _ _ => .extract

/-- Python index normalisation for `s[a:b]` slicing: negative indices count
from the end, everything is clamped to `[0, len]`. -/
def pySliceNorm (len : Nat) (i : Int) : Nat :=
  if i < 0 then (Int.ofNat len + i).toNat else min i.toNat len

/-- Python string slice `s[start:stop]` (step 1). -/
def pySlice (s : String) (start stop : Option Int) : String :=
  let cs := s.data
  let len := cs.length
  let a := match start with
    | none => 0
    | some i => pySliceNorm len i
  let b := match stop with
    | none => len
    | some i => pySliceNorm len i
  String.mk ((cs.drop a).take (b - a))

/-- `Action.act(text, variables) -> Optional[str]`, from `processor/action.py`.
Faithful points: `RegexExtractAction` catches `re.error` around the search and
checks `group < len(match.groups()) + 1`; `DeriveAction` skips when its target
already exists or its source is missing; `ExtractAction` swallows every
exception (`except Exception`), so an invalid split pattern yields `None`;
unknown methods yield `None`. -/
def Action.act : Action → String → VarMap → Option String
  | .set _ value, _, _ => some value
  | .regexExtract _ pattern group from_text, text, _ =>
    if from_text then
      match reSearch pattern text with
      | .error _ => none
      | .ok none => none
      | .ok (some m) =>
        if group < m.groups.length + 1 then m.group group else none
    else none
  | .derive variableName from_var method args, _, vars =>
    if dmem vars variableName then none
    else if !dmem vars from_var then none
    else
      let source_value := (dget vars from_var).getD ""
      if method = "slice" then some (pySlice source_value args.start args.stop)
      else if method = "upper" then some source_value.toUpper
      else if method = "lower" then some source_value.toLower
      else none
  | .extract _ from_var method args, _, vars =>
    if !dmem vars from_var then none
    else
      let source_value := (dget vars from_var).getD ""
      if method = "split" then
        match reSplit args.pattern source_value with
        | .error _ => none
        | .ok parts =>
          if 0 ≤ args.index ∧ args.index < parts.length then
            parts.get? args.index.toNat
          else none
      else none

/-- A parsed rule.  Fields as constructed by `RuleParser.parse_dict`
(`rules/parser.py`), which also passes `derived_variables` (the scope lists
are descriptive metadata; `Rule.apply` never reads them). -/
structure Rule where
  rule_id : String
  description : String
  global_variables : List String
  local_variables : List String
  derived_variables : List String
  criteria : List Criterion
  actions : List Action

/-- The result dict returned by `Rule.apply`; `vars` is the `variables` key
(`variables` is reserved in Lean 4). -/
structure RuleResult where
  rule_id : String
  vars : VarMap
  rule_description : String
  deriving DecidableEq

/-- The action-execution loop shared by both phases of `Rule.apply`: each
non-`None` result is written into the map immediately, so later actions see
earlier writes. -/
def runActions (text : String) (init : VarMap) (acts : List Action) : VarMap :=
  acts.foldl (fun m a =>
    match a.act text m with
    | some result => dset m a.var result
    | none => m) init

/-- `Rule.apply(text)`, from `rules/rule.py` (the `Rule` imported by
`NominalProcessor`): every top-level criterion must match (captures are
unioned as the seed map), then all non-derive actions run in declared order
(phase 1), then all derive actions run in declared order (phase 2). -/
def Rule.apply (r : Rule) (text : String) : Option RuleResult :=
  let matched := matchAllList r.criteria text []
  if matched.1 then
    let non_derive_actions := r.actions.filter (fun a => a.getType ≠ ActionType.derive)
    let derive_actions := r.actions.filter (fun a => a.getType = ActionType.derive)
    let phase1 := runActions text matched.2 non_derive_actions
    let phase2 := runActions text phase1 derive_actions
    some { rule_id := r.rule_id, vars := phase2, rule_description := r.description }
  else none

/-- One criterion entry of a rule configuration, as read by
`RuleParser._parse_criterion` (`rules/parser.py`).  `ctype` is the `type`
field (`none` when absent); the `case_sensitive`/`capture` defaults of
`data.get` are resolved when the model value is built; `children` is the
nested `criteria` list of a composite criterion. -/
inductive CritConfig where
  | mk (ctype : Option String) (value : String) (case_sensitive : Bool)
      (pattern : Pattern) (capture : Bool) (cvar : Option String)
      (children : List CritConfig) (description : String)

mutual

/-- `RuleParser._parse_criterion` (`rules/parser.py`): maps the `type` string
to a constructor; a missing `type` or an unknown tag raises `ValueError`.
The regex `pattern` is stored as-is — its validity is never examined here. -/
def parseCriterion : CritConfig → Except String Criterion
  | .mk ctype value case_sensitive pattern capture cvar children _ =>
    match ctype with
    | none => .error "Criterion must have a 'type' field"
    | some t =>
      if t = "contains" then .ok (.contains value case_sensitive)
      else if t = "regex" then .ok (.regex pattern capture cvar)
      else if t = "all" then
        match parseCriterionList children with
        | .ok subs => .ok (.all subs)
        | .error e => .error e
      else if t = "any" then
        match parseCriterionList children with
        | .ok subs => .ok (.any subs)
        | .error e => .error e
      else .error ("Unknown criterion type: " ++ t)

/-- The list comprehension `[self._parse_criterion(c) for c in ...]`: the
first raised error propagates. -/
def parseCriterionList : List CritConfig → Except String (List Criterion)
  | [] => .ok []
  | c :: cs =>
    match parseCriterion c with
    | .error e => .error e
    | .ok crit =>
      match parseCriterionList cs with
      | .error e => .error e
      | .ok crits => .ok (crit :: crits)

end

/-- The payload returned by `NominalProcessor.process_document` for a matched
document (`processor/processor.py`): `global_variables` is the map extracted
by the global rules, `local_variables` is the matched form rule's entire raw
variable map.  There is no `derived_variables` key. -/
structure ResultPayload where
  rule_id : String
  document_id : String
  global_variables : VarMap
  local_variables : VarMap
  rule_description : String
  deriving DecidableEq

/-- An entry of `unmatched_documents`. -/
structure UnmatchedEntry where
  document_id : String
  text_preview : String
  extracted_vars : VarMap
  deriving DecidableEq

/-- `NominalProcessor` state: the two rule lists, the batch-level
`global_variables`, and the `unmatched_documents` log. -/
structure ProcessorState where
  global_rules : List Rule
  form_rules : List Rule
  global_variables : VarMap
  unmatched_documents : List UnmatchedEntry

/-- `NominalProcessor._apply_global_rules`: each global rule is applied
independently; a produced entry is copied only if its value is truthy
(Python `if value`: non-empty string) and the key is not already present
(first rule wins per key). -/
def applyGlobalRules (rules : List Rule) (text : String) : VarMap :=
  rules.foldl (fun extracted_vars rule =>
    match rule.apply text with
    | some result =>
      result.vars.foldl (fun acc kv =>
        if kv.2 ≠ "" ∧ ¬ dmem acc kv.1 then dset acc kv.1 kv.2 else acc) extracted_vars
    | none => extracted_vars) []

/-- `NominalProcessor._classify_document`: first form rule whose `apply`
succeeds, in declared order. -/
def classifyDocument : List Rule → String → Option (Rule × RuleResult)
  | [], _ => none
  | rule :: rest, text =>
    match rule.apply text with
    | some result => some (rule, result)
    | none => classifyDocument rest text

/-- `text[:200] + "..."` truncation used for the unmatched-document log. -/
def textPreview (text : String) : String :=
  if text.length > 200 then text.take 200 ++ "..." else text

/-- Outcome of `process_document`: the updated processor state, the returned
payload (or `None`), and the global-variable conflicts that the
`enforce_global` block reports via `logger.warning` (returned explicitly so
the flag's only effect — logging — is observable). -/
structure DocumentOutcome where
  state : ProcessorState
  result : Option ResultPayload
  conflicts : List (String × String × String)

/-- The merge loop of `process_document` step "Update batch-level global
variables (first value wins)": copy an extracted entry only when its key is
not yet bound. -/
def mergeGlobals (extracted g : VarMap) : VarMap :=
  extracted.foldl (fun g kv => if ¬ dmem g kv.1 then dset g kv.1 kv.2 else g) g

/-- The conflict scan of the `enforce_global` block: every extracted key that
already has a *different* value in the batch map. -/
def conflictsOf (g extracted : VarMap) : List (String × String × String) :=
  extracted.filterMap (fun kv =>
    match dget g kv.1 with
    | some existing => if existing ≠ kv.2 then some (kv.1, existing, kv.2) else none
    | none => none)

/-- `NominalProcessor.process_document(text, document_id, enforce_global)`. -/
def processDocument (s : ProcessorState) (text : String) (document_id : Option String)
    (enforce_global : Bool) : DocumentOutcome :=
  let doc_id := document_id.getD ("doc_" ++ toString (s.unmatched_documents.length + 1))
  let extracted_global_vars := applyGlobalRules s.global_rules text
  match classifyDocument s.form_rules text with
  | none =>
    let error_entry : UnmatchedEntry :=
      { document_id := doc_id, text_preview := textPreview text,
        extracted_vars := extracted_global_vars }
    { state := { s with unmatched_documents := s.unmatched_documents ++ [error_entry] },
      result := none, conflicts := [] }
  | some (matched_rule, classification_result) =>
    let local_vars := classification_result.vars
    let conflicts :=
      if enforce_global then conflictsOf s.global_variables extracted_global_vars else []
    let new_globals := mergeGlobals extracted_global_vars s.global_variables
    { state := { s with global_variables := new_globals },
      result := some
        { rule_id := matched_rule.rule_id, document_id := doc_id,
          global_variables := extracted_global_vars, local_variables := local_vars,
          rule_description := matched_rule.description },
      conflicts := conflicts }

/-- One element of a batch: a bare text, or a `(doc_id, text)` pair. -/
inductive BatchDoc where
  | text (t : String)
  | pair (doc_id : String) (t : String)

/-- The loop of `process_batch`: `i` is the 1-based position used for the
default `doc_N` identifiers of bare texts. -/
def batchLoop : ProcessorState → List BatchDoc → Nat → Bool →
    ProcessorState × List (Option ResultPayload)
  | s, [], _, _ => (s, [])
  | s, d :: ds, i, enforce_global =>
    let idText : String × String :=
      match d with
      | .pair did t => (did, t)
      | .text t => ("doc_" ++ toString i, t)
    let outcome := processDocument s idText.2 (some idText.1) enforce_global
    let rest := batchLoop outcome.state ds (i + 1) enforce_global
    (rest.1, outcome.result :: rest.2)

/-- `NominalProcessor.process_batch(documents, enforce_global)`: resets
`global_variables` and `unmatched_documents`, then processes the documents
sequentially in input order, collecting one result (or `None`) per document. -/
def processBatch (s : ProcessorState) (documents : List BatchDoc)
    (enforce_global : Bool) : ProcessorState × List (Option ResultPayload) :=
  let s0 := { s with global_variables := [], unmatched_documents := [] }
  batchLoop s0 documents 1 enforce_global

/-- Modelled from the spec (§4.3 step 6): the partition of a matched rule's
raw variable map selecting the entries whose name is in the rule's declared
global scope list.  Used only to compare the spec's claimed payload against
the code's actual payload. -/
def specGlobalPartition (r : Rule) (raw : VarMap) : VarMap :=
  raw.filter (fun kv => r.global_variables.contains kv.1)

/-- Modelled from the spec (§4.3 step 6): declared-local partition. -/
def specLocalPartition (r : Rule) (raw : VarMap) : VarMap :=
  raw.filter (fun kv => r.local_variables.contains kv.1)

/-- Modelled from the spec (§4.3 step 6): declared-derived partition. -/
def specDerivedPartition (r : Rule) (raw : VarMap) : VarMap :=
  raw.filter (fun kv => r.derived_variables.contains kv.1)

/-! ### Concrete fixtures for counterexamples and witnesses -/

/-- A pattern that does not compile (`re.error` on use). -/
def badPattern : Pattern :=
  { valid := false, search := fun _ => none, split := fun s => [s] }

/-- A valid pattern matching the first character of a non-empty text. -/
def firstCharPattern : Pattern :=
  { valid := true,
    search := fun t => if t.length > 0 then some { whole := t.take 1, groups := [] } else none,
    split := fun s => [s] }

/-- A valid pattern that matches every text with whole match `"hit"`. -/
def hitPattern : Pattern :=
  { valid := true, search := fun _ => some { whole := "hit", groups := [] },
    split := fun s => [s] }

/-- A form rule with no criteria (matches every document) and no actions. -/
def matchAllFormRule : Rule :=
  { rule_id := "FORM", description := "always matches", global_variables := [],
    local_variables := [], derived_variables := [], criteria := [], actions := [] }

/-- A global rule extracting `GLOBAL_X` as the first character of the text. -/
def globalXRule : Rule :=
  { rule_id := "global-x", description := "", global_variables := ["GLOBAL_X"],
    local_variables := [], derived_variables := [],
    criteria := [], actions := [.regexExtract "GLOBAL_X" firstCharPattern 0 true] }

/-- Processor with the `GLOBAL_X` global rule and the always-matching form rule. -/
def batchState : ProcessorState :=
  { global_rules := [globalXRule], form_rules := [matchAllFormRule],
    global_variables := [], unmatched_documents := [] }

/-- A form rule declaring `G` global, `L` local, `D` derived, whose actions set
all three plus an undeclared `U`. -/
def scopedRule : Rule :=
  { rule_id := "scoped", description := "", global_variables := ["G"],
    local_variables := ["L"], derived_variables := ["D"], criteria := [],
    actions := [.set "G" "g", .set "L" "l", .set "D" "d", .set "U" "u"] }

/-- Processor with only the scope-declaring form rule. -/
def scopedState : ProcessorState :=
  { global_rules := [], form_rules := [scopedRule], global_variables := [],
    unmatched_documents := [] }

/-- A rule whose derive action is declared BEFORE the extraction that produces
its source: the two-phase split still lets the derivation see the value. -/
def twoPhaseRule : Rule :=
  { rule_id := "two-phase", description := "", global_variables := [],
    local_variables := [], derived_variables := [], criteria := [],
    actions := [.derive "D" "X" "slice" { start := some (-1), stop := none }, .set "X" "ab"] }

/-- Form rule `R1` (always matches, tags `WHO`). -/
def r1Rule : Rule :=
  { rule_id := "R1", description := "first", global_variables := [],
    local_variables := [], derived_variables := [], criteria := [],
    actions := [.set "WHO" "r1"] }

/-- Form rule `R2` (always matches, tags `WHO`). -/
def r2Rule : Rule :=
  { rule_id := "R2", description := "second", global_variables := [],
    local_variables := [], derived_variables := [], criteria := [],
    actions := [.set "WHO" "r2"] }

/-- A regex criterion configuration whose pattern is invalid. -/
def badRegexConfig : CritConfig :=
  .mk (some "regex") "" true badPattern false none [] ""

/-- A state with one pre-existing global binding and no rules. -/
def presetState : ProcessorState :=
  { global_rules := [], form_rules := [], global_variables := [("K", "v")],
    unmatched_documents := [] }

/-! ### Association-list (Python dict) lemmas -/

theorem dget_dset_self (m : VarMap) (k v : String) : dget (dset m k v) k = some v := by
  induction m with
  | nil => simp [dset, dget]
  | cons hd tl ih =>
    obtain ⟨a, b⟩ := hd
    by_cases h : a = k
    · simp [dset, dget, h]
    · simp [dset, dget, h, ih]

theorem dget_dset_ne (m : VarMap) (k k' v : String) (h : k' ≠ k) :
    dget (dset m k' v) k = dget m k := by
  induction m with
  | nil => simp [dset, dget, h]
  | cons hd tl ih =>
    obtain ⟨a, b⟩ := hd
    by_cases ha : a = k'
    · subst ha; simp [dset, dget, h]
    · simp [dset, dget, ha, ih]

theorem dget_dset_cases (m : VarMap) (k k' v v' : String)
    (h : dget (dset m k' v') k = some v) : (k' = k ∧ v' = v) ∨ dget m k = some v := by
  by_cases he : k' = k
  · subst he
    rw [dget_dset_self] at h
    exact Or.inl ⟨rfl, Option.some_inj.mp h⟩
  · rw [dget_dset_ne m k k' v' he] at h
    exact Or.inr h

theorem mem_dset (m : VarMap) (k v : String) (kv : String × String)
    (h : kv ∈ dset m k v) : kv = (k, v) ∨ kv ∈ m := by
  induction m with
  | nil => simpa [dset] using h
  | cons hd tl ih =>
    obtain ⟨a, b⟩ := hd
    by_cases ha : a = k
    · subst ha
      simp [dset] at h
      rcases h with h | h
      · exact Or.inl (by simp [h])
      · exact Or.inr (by simp [h])
    · simp [dset, ha] at h
      rcases h with h | h
      · exact Or.inr (by simp [h])
      · rcases ih h with h' | h'
        · exact Or.inl h'
        · exact Or.inr (by simp [h'])

theorem dget_mem (m : VarMap) (k v : String) (h : dget m k = some v) : (k, v) ∈ m := by
  induction m with
  | nil => simp [dget] at h
  | cons hd tl ih =>
    obtain ⟨a, b⟩ := hd
    by_cases ha : a = k
    · subst ha
      simp [dget] at h
      simp [h]
    · simp [dget, ha] at h
      simp [ih h]

/-- The first-wins merge loop of `process_document` step 5 never changes a key
that is already bound. -/
theorem mergeGlobals_preserves (l : VarMap) (g : VarMap) (k v : String)
    (h : dget g k = some v) : dget (mergeGlobals l g) k = some v := by
  unfold mergeGlobals
  induction l generalizing g with
  | nil => simpa using h
  | cons kv' rest ih =>
    simp only [List.foldl_cons]
    apply ih
    by_cases hm : dmem g kv'.1 = true
    · rw [if_neg (not_not_intro hm)]
      exact h
    · rw [if_pos hm]
      by_cases hk : kv'.1 = k
      · exact absurd (by subst hk; simp [dmem, h]) hm
      · rw [dget_dset_ne g k kv'.1 kv'.2 hk]
        exact h

/-- The first-wins merge loop only adds values that occur in the merged list. -/
theorem mergeGlobals_entries (l : VarMap) (g : VarMap) (kv : String × String)
    (h : kv ∈ mergeGlobals l g) : (∃ kv' ∈ l, kv = kv') ∨ kv ∈ g := by
  unfold mergeGlobals at h
  induction l generalizing g with
  | nil => exact Or.inr (by simpa using h)
  | cons kv' rest ih =>
    simp only [List.foldl_cons] at h
    rcases ih _ h with h' | h'
    · rcases h' with ⟨kv'', hmem, heq⟩
      exact Or.inl ⟨kv'', by simp [hmem], heq⟩
    · by_cases hm : dmem g kv'.1
      · simp [hm] at h'
        exact Or.inr h'
      · simp [hm] at h'
        rcases mem_dset g kv'.1 kv'.2 kv h' with h'' | h''
        · exact Or.inl ⟨kv', by simp, by simpa using h''⟩
        · exact Or.inr h''

/-- The guarded copy loop of `_apply_global_rules` only adds entries with a
truthy (non-empty) value. -/
theorem copyFold_entries (l : VarMap) (acc : VarMap) (kv : String × String)
    (h : kv ∈ l.foldl
      (fun acc kv => if kv.2 ≠ "" ∧ ¬ dmem acc kv.1 then dset acc kv.1 kv.2 else acc) acc) :
    kv.2 ≠ "" ∨ kv ∈ acc := by
  induction l generalizing acc with
  | nil => exact Or.inr (by simpa using h)
  | cons kv' rest ih =>
    simp only [List.foldl_cons] at h
    rcases ih _ h with h' | h'
    · exact Or.inl h'
    · by_cases hc : kv'.2 ≠ "" ∧ ¬ dmem acc kv'.1
      · rw [if_pos hc] at h'
        rcases mem_dset acc kv'.1 kv'.2 kv h' with h'' | h''
        · exact Or.inl (by rw [h'']; exact hc.1)
        · exact Or.inr h''
      · rw [if_neg hc] at h'
        exact Or.inr h'

/-- The rule loop of `_apply_global_rules` preserves "all entries truthy". -/
theorem globalFold_entries (text : String) (rules : List Rule) (acc : VarMap)
    (hacc : ∀ kv ∈ acc, kv.2 ≠ "") (kv : String × String)
    (h : kv ∈ rules.foldl (fun extracted_vars rule =>
      match rule.apply text with
      | some result =>
        result.vars.foldl (fun acc kv =>
          if kv.2 ≠ "" ∧ ¬ dmem acc kv.1 then dset acc kv.1 kv.2 else acc) extracted_vars
      | none => extracted_vars) acc) : kv.2 ≠ "" := by
  induction rules generalizing acc with
  | nil => exact hacc kv (by simpa using h)
  | cons rule rest ih =>
    simp only [List.foldl_cons] at h
    apply ih _ _ h
    intro kv' hkv'
    cases happ : rule.apply text with
    | none =>
      rw [happ] at hkv'
      exact hacc kv' hkv'
    | some result =>
      rw [happ] at hkv'
      rcases copyFold_entries result.vars acc kv' hkv' with h' | h'
      · exact h'
      · exact hacc kv' h'

/-- Every entry produced by `_apply_global_rules` has a non-empty value. -/
theorem applyGlobalRules_entries (rules : List Rule) (text : String)
    (kv : String × String) (h : kv ∈ applyGlobalRules rules text) : kv.2 ≠ "" := by
  unfold applyGlobalRules at h
  exact globalFold_entries text rules [] (by simp) kv h

/-! ### `process_document` characterizations -/

/-- On a classified document, `process_document` merges the extracted globals
first-wins into the batch map, reports conflicts only under `enforce_global`,
and returns the payload built from the global-rule extraction and the matched
rule's raw variable map. -/
theorem processDocument_matched (s : ProcessorState) (text : String)
    (did : Option String) (eg : Bool) (rule : Rule) (res : RuleResult)
    (h : classifyDocument s.form_rules text = some (rule, res)) :
    processDocument s text did eg =
      { state := { s with global_variables := mergeGlobals (applyGlobalRules s.global_rules text) s.global_variables },
        result := some
          { rule_id := rule.rule_id,
            document_id := did.getD ("doc_" ++ toString (s.unmatched_documents.length + 1)),
            global_variables := applyGlobalRules s.global_rules text,
            local_variables := res.vars,
            rule_description := rule.description },
        conflicts :=
          if eg then conflictsOf s.global_variables (applyGlobalRules s.global_rules text)
          else [] } := by
  simp [processDocument, h]

/-- On an unclassified document, `process_document` only appends to the
unmatched log and returns `None`. -/
theorem processDocument_unmatched (s : ProcessorState) (text : String)
    (did : Option String) (eg : Bool)
    (h : classifyDocument s.form_rules text = none) :
    processDocument s text did eg =
      { state := { s with unmatched_documents := s.unmatched_documents ++
          [{ document_id := did.getD ("doc_" ++ toString (s.unmatched_documents.length + 1)),
             text_preview := textPreview text,
             extracted_vars := applyGlobalRules s.global_rules text }] },
        result := none, conflicts := [] } := by
  simp [processDocument, h]

/-- `_classify_document` returns the first rule whose `apply` succeeds. -/
theorem classify_append_first (l₁ l₂ : List Rule) (R : Rule) (text : String)
    (res : RuleResult) (hfail : ∀ r ∈ l₁, r.apply text = none)
    (hR : R.apply text = some res) :
    classifyDocument (l₁ ++ R :: l₂) text = some (R, res) := by
  induction l₁ with
  | nil => simp [classifyDocument, hR]
  | cons r rest ih =>
    have hr : r.apply text = none := hfail r (by simp)
    simp only [List.cons_append, classifyDocument, hr]
    exact ih (fun r' hr' => hfail r' (by simp [hr']))

/-- `runActions` over a list of derive actions never changes a key that is
already bound (a derive action skips when its target exists, and writes only
its own target otherwise). -/
theorem runActions_derive_preserves (text : String) :
    ∀ (acts : List Action), (∀ a ∈ acts, a.getType = ActionType.derive) →
    ∀ (m : VarMap) (k v : String), dget m k = some v →
    dget (runActions text m acts) k = some v := by
  intro acts
  induction acts with
  | nil =>
    intro _ m k v h
    simpa [runActions] using h
  | cons a rest ih =>
    intro hder m k v h
    have ha : a.getType = ActionType.derive := hder a (by simp)
    have hrest : ∀ a' ∈ rest, a'.getType = ActionType.derive :=
      fun a' h' => hder a' (by simp [h'])
    cases a with
    | set w val => simp [Action.getType] at ha
    | regexExtract w p g ft => simp [Action.getType] at ha
    | extract w fv meth args => simp [Action.getType] at ha
    | derive w fv meth args =>
      simp only [runActions, List.foldl_cons]
      apply ih hrest
      cases hact : (Action.derive w fv meth args).act text m with
      | none => simpa [hact] using h
      | some r =>
        have hvw : dmem m w = false := by
          cases hb : dmem m w
          · rfl
          · simp [Action.act, hb] at hact
        have hwk : w ≠ k := by
          intro he
          subst he
          simp [dmem, h] at hvw
        simpa [hact, Action.var] using (dget_dset_ne m k w r hwk).trans h

/-- The loop of `process_batch` produces exactly one result slot per input
document. -/
theorem batchLoop_length : ∀ (ds : List BatchDoc) (s : ProcessorState) (i : Nat)
    (eg : Bool), (batchLoop s ds i eg).2.length = ds.length := by
  intro ds
  induction ds with
  | nil => intro s i eg; rfl
  | cons d rest ih =>
    intro s i eg
    cases d <;> simp [batchLoop, ih]

/-- The loop of `AnyCriterion.match` returns the first matching child's
result. -/
theorem matchAnyList_append_first (text : String) :
    ∀ (l₁ : List Criterion) (c : Criterion) (l₂ : List Criterion) (caps : VarMap),
    (∀ c' ∈ l₁, (c'.matchOn text).1 = false) → c.matchOn text = (true, caps) →
    matchAnyList (l₁ ++ c :: l₂) text = (true, caps) := by
  intro l₁
  induction l₁ with
  | nil =>
    intro c l₂ caps _ hc
    simp [matchAnyList, hc]
  | cons c' rest ih =>
    intro c l₂ caps hfail hc
    have h' : (c'.matchOn text).1 = false := hfail c' (by simp)
    simp only [List.cons_append, matchAnyList, h']
    simpa [h'] using ih c l₂ caps (fun c'' h'' => hfail c'' (by simp [h''])) hc

/-- The loop of `AnyCriterion.match` succeeds iff some child matches. -/
theorem matchAnyList_true_iff (text : String) :
    ∀ (cs : List Criterion),
    (matchAnyList cs text).1 = true ↔ ∃ c ∈ cs, (c.matchOn text).1 = true := by
  intro cs
  induction cs with
  | nil => simp [matchAnyList]
  | cons c rest ih =>
    cases hc : (c.matchOn text).1 with
    | true =>
      simp only [matchAnyList, hc]
      exact ⟨fun _ => ⟨c, by simp, hc⟩, fun _ => by simp [hc]⟩
    | false =>
      simp only [matchAnyList, hc]
      constructor
      · intro h
        rcases ih.mp (by simpa [hc] using h) with ⟨c', hmem, hc'⟩
        exact ⟨c', by simp [hmem], hc'⟩
      · intro h
        rcases h with ⟨c', hmem, hc'⟩
        rcases List.mem_cons.mp hmem with he | hmem'
        · subst he; rw [hc'] at hc; exact absurd hc (by simp)
        · simpa [hc] using ih.mpr ⟨c', hmem', hc'⟩

/-! ### Claims -/

/-- C1 (counterexample): with a form rule declaring `G` global, `L` local and
`D` derived whose actions also set an undeclared `U`, the payload returned by
`process_document` does NOT partition by the declared scope lists: its
`global_variables` is `{}` (the global-rule extraction — there are no global
rules here), not `{G: g}`, and its `local_variables` is the whole raw map with
`G`, `D` and the undeclared `U` retained. -/
theorem c1_partition_counterexample :
    (processDocument scopedState "t" none false).result.map ResultPayload.global_variables
      = some []
    ∧ (processDocument scopedState "t" none false).result.map ResultPayload.local_variables
      = some [("G", "g"), ("L", "l"), ("D", "d"), ("U", "u")]
    ∧ specGlobalPartition scopedRule [("G", "g"), ("L", "l"), ("D", "d"), ("U", "u")]
      = [("G", "g")]
    ∧ specLocalPartition scopedRule [("G", "g"), ("L", "l"), ("D", "d"), ("U", "u")]
      = [("L", "l")]
    ∧ specDerivedPartition scopedRule [("G", "g"), ("L", "l"), ("D", "d"), ("U", "u")]
      = [("D", "d")]
    ∧ (some ([] : VarMap) ≠ some [("G", "g")])
    ∧ (some [("G", "g"), ("L", "l"), ("D", "d"), ("U", "u")] ≠ some ([("L", "l")] : VarMap)) := by
  decide

/-- C1 (amended): for every matched document, `process_document` performs no
scope partitioning: the returned payload's `global_variables` is the map
extracted by the global rules, its `local_variables` is the matched rule's
entire raw variable map (undeclared variables retained), and there is no
`derived_variables` key in the payload. -/
theorem c1_partition_amended (s : ProcessorState) (text : String) (did : Option String)
    (eg : Bool) (rule : Rule) (res : RuleResult)
    (h : classifyDocument s.form_rules text = some (rule, res)) :
    (processDocument s text did eg).result = some
      { rule_id := rule.rule_id,
        document_id := did.getD ("doc_" ++ toString (s.unmatched_documents.length + 1)),
        global_variables := applyGlobalRules s.global_rules text,
        local_variables := res.vars,
        rule_description := rule.description } := by
  rw [processDocument_matched s text did eg rule res h]

/-- C1 witness: the amended payload shape at a concrete matched document. -/
theorem c1_partition_witness :
    (processDocument scopedState "t" none false).result = some
      { rule_id := "scoped", document_id := "doc_1", global_variables := [],
        local_variables := [("G", "g"), ("L", "l"), ("D", "d"), ("U", "u")],
        rule_description := "" } := by
  have h := c1_partition_amended scopedState "t" none false scopedRule
    ⟨"scoped", [("G", "g"), ("L", "l"), ("D", "d"), ("U", "u")], ""⟩ rfl
  exact h.trans (by decide)

/-- C2: when every criterion of a rule matches, `Rule.apply` executes the
actions as one sequential pass over the stable partition "all non-derive
actions in declared order, then all derive actions in declared order", each
non-`None` result written into the map immediately (the fold), starting from
the criteria captures. -/
theorem c2_two_phase_execution (r : Rule) (text : String)
    (h : (matchAllList r.criteria text []).1 = true) :
    Rule.apply r text = some
      { rule_id := r.rule_id,
        vars := runActions text (matchAllList r.criteria text []).2
          (r.actions.filter (fun a => a.getType ≠ ActionType.derive)
            ++ r.actions.filter (fun a => a.getType = ActionType.derive)),
        rule_description := r.description } := by
  simp [Rule.apply, h, runActions, List.foldl_append]

/-- C2 witness: a rule whose derive action is declared before the extraction
that produces its source still derives from the extracted value (`X = "ab"`
is written in phase 1, then `D = "b"` is derived in phase 2). -/
theorem c2_two_phase_witness :
    Rule.apply twoPhaseRule "t" =
      some { rule_id := "two-phase", vars := [("X", "ab"), ("D", "b")],
             rule_description := "" } :=
  (c2_two_phase_execution twoPhaseRule "t" rfl).trans (by decide)

/-- C3 (counterexample): a rule configuration with an invalid regex pattern is
NOT rejected at parse time — `_parse_criterion` constructs the
`RegexCriterion` without examining the pattern. -/
theorem c3_parse_counterexample :
    badPattern.valid = false
    ∧ parseCriterion badRegexConfig = .ok (.regex badPattern false none) :=
  ⟨rfl, rfl⟩

/-- C3 (amended): `_parse_criterion` accepts every regex pattern (valid or
not), and `RegexCriterion.match` never throws: an invalid pattern's
`re.error` is caught and yields a non-matching `(False, {})`, and a
valid-but-failing pattern also yields a non-matching result. -/
theorem c3_regex_error_amended (p : Pattern) (capture : Bool) (cvar : Option String)
    (value : String) (case_sensitive : Bool) (children : List CritConfig)
    (desc text : String) :
    (parseCriterion (.mk (some "regex") value case_sensitive p capture cvar children desc)
      = .ok (.regex p capture cvar))
    ∧ (p.valid = false → Criterion.matchOn (.regex p capture cvar) text = (false, []))
    ∧ (p.valid = true → p.search text = none →
        Criterion.matchOn (.regex p capture cvar) text = (false, [])) := by
  refine ⟨rfl, ?_, ?_⟩
  · intro hp
    simp [Criterion.matchOn, reSearch, hp]
  · intro hp hs
    simp [Criterion.matchOn, reSearch, hp, hs]

/-- C3 witness: an invalid pattern and a valid-but-failing pattern both yield
a non-match (never an exception). -/
theorem c3_regex_error_witness :
    Criterion.matchOn (.regex badPattern false none) "abc" = (false, [])
    ∧ Criterion.matchOn (.regex firstCharPattern false none) "" = (false, []) :=
  ⟨(c3_regex_error_amended badPattern false none "" true [] "" "abc").2.1 rfl,
   (c3_regex_error_amended firstCharPattern false none "" true [] "" "").2.2 rfl rfl⟩

/-- C4: the batch-level `global_variables` map is first-value-wins — a key
already bound before a `process_document` call still has the same value
afterwards — and in the concrete batch `[D1 = "a", D2 = "b"]` where each
document yields `GLOBAL_X` as its first character, the batch ends with
`GLOBAL_X = "a"`. -/
theorem c4_first_value_wins :
    (∀ (s : ProcessorState) (text : String) (did : Option String) (eg : Bool)
        (k v : String),
      dget s.global_variables k = some v →
      dget (processDocument s text did eg).state.global_variables k = some v)
    ∧ dget (applyGlobalRules batchState.global_rules "b") "GLOBAL_X" = some "b"
    ∧ dget (processBatch batchState [.text "a", .text "b"] true).1.global_variables
        "GLOBAL_X" = some "a" := by
  refine ⟨?_, by decide, by decide⟩
  intro s text did eg k v h
  cases hc : classifyDocument s.form_rules text with
  | none =>
    rw [processDocument_unmatched s text did eg hc]
    exact h
  | some rr =>
    obtain ⟨rule, res⟩ := rr
    rw [processDocument_matched s text did eg rule res hc]
    exact mergeGlobals_preserves _ _ k v h

/-- C4 witness: a pre-existing binding `K = "v"` survives a
`process_document` call. -/
theorem c4_first_value_wins_witness :
    dget (processDocument presetState "t" none true).state.global_variables "K" = some "v" :=
  c4_first_value_wins.1 presetState "t" none true "K" "v" rfl

/-- C5: classification is first-match-wins over the form rules in declared
order: if every rule before `R` fails and `R.apply` succeeds,
`_classify_document` returns `R`'s result, and `process_document` returns
`R`'s payload. -/
theorem c5_first_match_wins :
    (∀ (l₁ l₂ : List Rule) (R : Rule) (text : String) (res : RuleResult),
      (∀ r ∈ l₁, r.apply text = none) → R.apply text = some res →
      classifyDocument (l₁ ++ R :: l₂) text = some (R, res))
    ∧ (∀ (s : ProcessorState) (l₁ l₂ : List Rule) (R : Rule) (text : String)
        (res : RuleResult) (did : Option String) (eg : Bool),
      s.form_rules = l₁ ++ R :: l₂ →
      (∀ r ∈ l₁, r.apply text = none) → R.apply text = some res →
      (processDocument s text did eg).result = some
        { rule_id := R.rule_id,
          document_id := did.getD ("doc_" ++ toString (s.unmatched_documents.length + 1)),
          global_variables := applyGlobalRules s.global_rules text,
          local_variables := res.vars,
          rule_description := R.description }) := by
  constructor
  · exact classify_append_first
  · intro s l₁ l₂ R text res did eg hform hfail hR
    have hc : classifyDocument s.form_rules text = some (R, res) := by
      rw [hform]
      exact classify_append_first l₁ l₂ R text res hfail hR
    rw [processDocument_matched s text did eg R res hc]

/-- C5 witness: `R2` also matches the text, yet classification over
`[R1, R2]` returns `R1`'s result. -/
theorem c5_first_match_wins_witness :
    (r2Rule.apply "t").isSome = true
    ∧ classifyDocument ([] ++ r1Rule :: [r2Rule]) "t"
      = some (r1Rule, ⟨"R1", [("WHO", "r1")], "first"⟩) :=
  ⟨by decide,
   c5_first_match_wins.1 [] [r2Rule] r1Rule "t" ⟨"R1", [("WHO", "r1")], "first"⟩
     (by simp) rfl⟩

/-- C6: a derive action returns `None` whenever its target variable already
has a value or its source variable is absent, and consequently a run of
derive actions (phase 2) never changes a key that phase 1 already bound. -/
theorem c6_derive_never_overwrites :
    (∀ (variableName from_var method : String) (args : DeriveArgs) (text : String)
        (m : VarMap),
      dmem m variableName = true →
      Action.act (.derive variableName from_var method args) text m = none)
    ∧ (∀ (variableName from_var method : String) (args : DeriveArgs) (text : String)
        (m : VarMap),
      dmem m from_var = false →
      Action.act (.derive variableName from_var method args) text m = none)
    ∧ (∀ (text : String) (acts : List Action),
      (∀ a ∈ acts, a.getType = ActionType.derive) →
      ∀ (m : VarMap) (k v : String), dget m k = some v →
      dget (runActions text m acts) k = some v) := by
  refine ⟨?_, ?_, runActions_derive_preserves⟩
  · intro v fv meth args text m h
    simp [Action.act, h]
  · intro v fv meth args text m h
    cases hdv : dmem m v <;> simp [Action.act, hdv, h]

/-- C6 witness: a derive whose target is bound skips; a derive whose source is
missing skips; a phase-2 run leaves an existing binding unchanged. -/
theorem c6_derive_never_overwrites_witness :
    Action.act (.derive "D" "S" "slice" ⟨some (-4), none⟩) "" [("D", "x"), ("S", "123")] = none
    ∧ Action.act (.derive "D" "S" "upper" ⟨none, none⟩) "" [] = none
    ∧ dget (runActions "" [("X", "keep")] [.derive "X" "X" "lower" ⟨none, none⟩]) "X"
      = some "keep" :=
  ⟨c6_derive_never_overwrites.1 "D" "S" "slice" ⟨some (-4), none⟩ "" [("D", "x"), ("S", "123")]
     (by decide),
   c6_derive_never_overwrites.2.1 "D" "S" "upper" ⟨none, none⟩ "" [] (by decide),
   c6_derive_never_overwrites.2.2 "" [.derive "X" "X" "lower" ⟨none, none⟩]
     (by simp [Action.getType]) [("X", "keep")] "X" "keep" (by decide)⟩

/-- C7: `process_batch` first resets `global_variables` and
`unmatched_documents`, processes the documents sequentially in input order,
and returns exactly one entry per input document in input order; the empty
batch returns `[]` and leaves `global_variables` empty. -/
theorem c7_batch_shape :
    (∀ (s : ProcessorState) (docs : List BatchDoc) (eg : Bool),
      (processBatch s docs eg).2.length = docs.length)
    ∧ (∀ (s : ProcessorState) (docs : List BatchDoc) (eg : Bool),
      processBatch s docs eg =
        batchLoop { s with global_variables := [], unmatched_documents := [] } docs 1 eg)
    ∧ (∀ (s : ProcessorState) (eg : Bool),
      processBatch s [] eg =
        ({ s with global_variables := [], unmatched_documents := [] }, []))
    ∧ (∀ (s : ProcessorState) (did t : String) (ds : List BatchDoc) (i : Nat) (eg : Bool),
      batchLoop s (.pair did t :: ds) i eg =
        ((batchLoop (processDocument s t (some did) eg).state ds (i + 1) eg).1,
         (processDocument s t (some did) eg).result ::
           (batchLoop (processDocument s t (some did) eg).state ds (i + 1) eg).2))
    ∧ (∀ (s : ProcessorState) (t : String) (ds : List BatchDoc) (i : Nat) (eg : Bool),
      batchLoop s (.text t :: ds) i eg =
        ((batchLoop (processDocument s t (some ("doc_" ++ toString i)) eg).state
            ds (i + 1) eg).1,
         (processDocument s t (some ("doc_" ++ toString i)) eg).result ::
           (batchLoop (processDocument s t (some ("doc_" ++ toString i)) eg).state
             ds (i + 1) eg).2)) := by
  refine ⟨?_, ?_, ?_, ?_, ?_⟩
  · intro s docs eg
    exact batchLoop_length docs _ 1 eg
  · intro s docs eg
    rfl
  · intro s eg
    rfl
  · intro s did t ds i eg
    rfl
  · intro s t ds i eg
    rfl

/-- C8: `Any` matches iff at least one child matches, evaluation is
first-match-wins in child order, the returned captures are exactly the first
matching child's captures, and `Any([])` matches nothing. -/
theorem c8_any_first_match (text : String) :
    (Criterion.matchOn (.any []) text = (false, []))
    ∧ (∀ (l₁ : List Criterion) (c : Criterion) (l₂ : List Criterion) (caps : VarMap),
      (∀ c' ∈ l₁, (c'.matchOn text).1 = false) → c.matchOn text = (true, caps) →
      Criterion.matchOn (.any (l₁ ++ c :: l₂)) text = (true, caps))
    ∧ (∀ (children : List Criterion),
      (Criterion.matchOn (.any children) text).1 = true
        ↔ ∃ c ∈ children, (c.matchOn text).1 = true) := by
  refine ⟨?_, ?_, ?_⟩
  · simp [Criterion.matchOn, matchAnyList]
  · intro l₁ c l₂ caps hfail hc
    show matchAnyList (l₁ ++ c :: l₂) text = (true, caps)
    exact matchAnyList_append_first text l₁ c l₂ caps hfail hc
  · intro children
    show (matchAnyList children text).1 = true ↔ _
    exact matchAnyList_true_iff text children

/-- C8 witness: the first child fails, the second matches with a capture, and
`Any` returns exactly the second child's captures. -/
theorem c8_any_first_match_witness :
    ((Criterion.contains "zz" true).matchOn "abc").1 = false
    ∧ Criterion.matchOn (.any [.contains "zz" true, .regex hitPattern true (some "V")]) "abc"
      = (true, [("V", "hit")]) :=
  ⟨by decide,
   (c8_any_first_match "abc").2.1 [.contains "zz" true]
     (.regex hitPattern true (some "V")) [] [("V", "hit")]
     (by intro c' hc'; rw [List.mem_singleton] at hc'; subst hc'; decide) rfl⟩

/-- C9: `_apply_global_rules` copies a key only when its value is truthy, so
an empty-string value never appears in the per-document extracted global map,
hence neither in a matched payload's `global_variables` nor (given a clean
batch map) in the batch-level `global_variables`. -/
theorem c9_empty_global_dropped :
    (∀ (rules : List Rule) (text k v : String),
      dget (applyGlobalRules rules text) k = some v → v ≠ "")
    ∧ (∀ (s : ProcessorState) (text : String) (did : Option String) (eg : Bool)
        (p : ResultPayload) (k v : String),
      (processDocument s text did eg).result = some p →
      dget p.global_variables k = some v → v ≠ "")
    ∧ (∀ (s : ProcessorState) (text : String) (did : Option String) (eg : Bool)
        (k v : String),
      (∀ kv ∈ s.global_variables, kv.2 ≠ "") →
      dget (processDocument s text did eg).state.global_variables k = some v → v ≠ "") := by
  have hA : ∀ (rules : List Rule) (text k v : String),
      dget (applyGlobalRules rules text) k = some v → v ≠ "" := by
    intro rules text k v h
    exact applyGlobalRules_entries rules text (k, v) (dget_mem _ k v h)
  refine ⟨hA, ?_, ?_⟩
  · intro s text did eg p k v hres h
    cases hc : classifyDocument s.form_rules text with
    | none =>
      rw [processDocument_unmatched s text did eg hc] at hres
      exact absurd hres (by simp)
    | some rr =>
      obtain ⟨rule, res⟩ := rr
      rw [processDocument_matched s text did eg rule res hc] at hres
      have hp : p.global_variables = applyGlobalRules s.global_rules text := by
        have := Option.some_inj.mp hres
        rw [← this]
      rw [hp] at h
      exact hA s.global_rules text k v h
  · intro s text did eg k v hclean h
    cases hc : classifyDocument s.form_rules text with
    | none =>
      rw [processDocument_unmatched s text did eg hc] at h
      exact hclean (k, v) (dget_mem _ k v h)
    | some rr =>
      obtain ⟨rule, res⟩ := rr
      rw [processDocument_matched s text did eg rule res hc] at h
      rcases mergeGlobals_entries _ _ (k, v) (dget_mem _ k v h) with ⟨kv', hmem, heq⟩ | hmem
      · subst heq
        simpa using applyGlobalRules_entries s.global_rules text (k, v) hmem
      · exact hclean (k, v) hmem

/-- C9 witness: a global rule producing `GLOBAL_X = "a"` yields a non-empty
extracted value. -/
theorem c9_empty_global_dropped_witness :
    dget (applyGlobalRules [globalXRule] "a") "GLOBAL_X" = some "a"
    ∧ ("a" : String) ≠ "" :=
  ⟨by decide, c9_empty_global_dropped.1 [globalXRule] "a" "GLOBAL_X" "a" (by decide)⟩

/-- C10: `enforce_global` has no effect on the returned result or on the
final processor state (`global_variables`, `unmatched_documents`): a detected
conflict is only reported (logged), the document is still matched, and the
first-seen batch value is kept. -/
theorem c10_enforce_global_equiv (s : ProcessorState) (text : String)
    (did : Option String) :
    (processDocument s text did true).state = (processDocument s text did false).state
    ∧ (processDocument s text did true).result = (processDocument s text did false).result := by
  cases hc : classifyDocument s.form_rules text with
  | none =>
    rw [processDocument_unmatched s text did true hc,
      processDocument_unmatched s text did false hc]
    exact ⟨rfl, rfl⟩
  | some rr =>
    obtain ⟨rule, res⟩ := rr
    rw [processDocument_matched s text did true rule res hc,
      processDocument_matched s text did false rule res hc]
    exact ⟨rfl, rfl⟩

end Nominal
